import Mathlib

/-!
# Verification of the MAIRY v3.0 pipeline core

Shallow embedding of `src/file-library/mairy_pipeline_a931128e.py`: the
bounded-retry generate→score→validate→learn loop (`_generate_and_validate`),
its four ordered acceptance checks, the Honest Limitation (fallback) Protocol,
and the façade `process_message`.

Python floats are embedded as rationals (`ℚ`).  External collaborators
(Mistral API client, memory engine, RLMD learner, shell manager) are pure
oracles gathered in an `Env` record; every call the core makes to an external
side-effecting collaborator is recorded in an explicit event trace so that
call-counting and ordering properties can be stated.

The module `triad_projection` (providing `check_in_harmonic_band` and `V_0`)
is imported by the source but absent from the repository; those two
definitions are modelled from the spec and say so in their doc comments.

The loop is embedded twice.  `_process_deviation_as_learning` (source lines
401-423) dereferences the name `logger` at line 420, but `logger` is never
imported or bound anywhere in the module, so in the code as written every
policy rejection raises `NameError` right after the single learner call.
`generateLoopRun` embeds that behaviour faithfully (rejection handling ends
in an uncaught error; retry, exhaustion and the fallback are unreachable).
`generateLoop` embeds the loop with that one-line slip patched out (the
semantics the module's own docstrings describe: learn, regenerate up to
`max_attempts`, then the Honest Limitation Protocol); the two models agree
on every run whose attempts are all accepted before the first rejection.
-/

namespace Mairy

/-- A 3-vector over ℚ, the embedding of the `np.ndarray` triads
(component order: kindness, freedom, truth, as in `TriadicScore.to_array`). -/
structure Vec3 where
  k : ℚ
  f : ℚ
  t : ℚ
deriving DecidableEq, Repr

instance : Sub Vec3 := ⟨fun a b => ⟨a.k - b.k, a.f - b.f, a.t - b.t⟩⟩

theorem Vec3.sub_def (a b : Vec3) : a - b = ⟨a.k - b.k, a.f - b.f, a.t - b.t⟩ := rfl

/-- Squared Euclidean norm of a `Vec3`.  The source compares
`np.linalg.norm(V - target) > 0.5`; over nonnegative reals this is equivalent
to `normSq (V - target) > 0.25`, which keeps the embedding inside ℚ (the
equivalence with the square-root form is proved in the proximity theorem). -/
def normSq (v : Vec3) : ℚ := v.k ^ 2 + v.f ^ 2 + v.t ^ 2

/-- `TriadicScore` dataclass: triad scores with semantic reasoning. -/
structure TriadicScore where
  kindness : ℚ
  freedom : ℚ
  truth : ℚ
  reasoning : String
deriving DecidableEq, Repr

/-- `TriadicScore.to_array`. -/
def TriadicScore.to_array (s : TriadicScore) : Vec3 := ⟨s.kindness, s.freedom, s.truth⟩

/-- Modelled from the spec: `V_0`, the reference posture imported from the
missing `triad_projection` module.  The spec fixes the reference value at 1.0
per component (the fallback posture has "care and autonomy at the reference
value", and those components are 1.0). -/
def V_0 : Vec3 := ⟨1, 1, 1⟩

/-- Modelled from the spec: `check_in_harmonic_band`, imported from the
missing `triad_projection` module.  Contract per the spec: componentwise
containment within the fixed band [0.8, 1.2] around the reference posture. -/
def check_in_harmonic_band (V : Vec3) : Bool :=
  decide ((0.8 : ℚ) ≤ V.k ∧ V.k ≤ 1.2 ∧ (0.8 : ℚ) ≤ V.f ∧ V.f ≤ 1.2 ∧
    (0.8 : ℚ) ≤ V.t ∧ V.t ≤ 1.2)

/-- `_check_geometric_tension` (source lines 448-473): Layer 2, values in
proper dynamic tension. -/
def check_geometric_tension (V : Vec3) : Bool :=
  if V.f > 1 ∧ V.t < 0.85 then false
  else if V.t > 1 ∧ V.k < 0.85 then false
  else if V.k > 1 ∧ V.f < 0.85 then false
  else true

/-- `_check_semantic_coherence_single` (source lines 425-446): Layer 1,
semantic coherence of the output posture against the input posture.  The
`response_text` parameter is kept because the source takes it (and ignores
it). -/
def check_semantic_coherence_single (response_text : String)
    (output_triad input_triad : TriadicScore) : Bool :=
  if input_triad.truth > 1 ∧ output_triad.truth < 0.9 then false
  else if input_triad.kindness > 1 ∧ output_triad.kindness < 0.9 then false
  else true

/-- The four rejection kinds of the inline three-layer validation.  The
source carries them as formatted `failure_reason` strings; the formatting is
presentation only. -/
inductive FailureReason where
  | outOfHarmonicBand
  | geometricTension
  | tooFarFromTarget
  | semanticCoherence
deriving DecidableEq, Repr

/-- One entry of the loop-local `attempt_history` list. -/
structure AttemptRecord where
  attempt : Nat
  response : String
  triad : Vec3
  failure : FailureReason
deriving DecidableEq, Repr

/-- `adaptive_context` as used by the core: only `target_triad` is read;
`extra` stands for the other, opaque keys of the dict. -/
structure AdaptiveContext where
  target_triad : Vec3
  extra : List (String × String)
deriving DecidableEq, Repr

/-- The inline three-layer validation of one candidate inside
`_generate_and_validate` (source lines 251-331), in source order with
early exit: hard harmonic band, geometric tension, target proximity,
semantic coherence.  Returns `none` on acceptance, otherwise the rejection
kind together with the deviation vector forwarded to the learner. -/
def validateCandidate (V target : Vec3) (response_text : String)
    (output_triad input_triad : TriadicScore) : Option (FailureReason × Vec3) :=
  if check_in_harmonic_band V = false then
    some (.outOfHarmonicBand, V - V_0)
  else if check_geometric_tension V = false then
    some (.geometricTension, V - target)
  else if normSq (V - target) > 1 / 4 then
    some (.tooFarFromTarget, V - target)
  else if check_semantic_coherence_single response_text output_triad input_triad = false then
    some (.semanticCoherence, V - target)
  else
    none

/-- The deviation the source pairs with each rejection kind:
`V - V_0` for the hard-bound rejection, `V - target` for the other three. -/
def deviationOf (target : Vec3) (r : AttemptRecord) : Vec3 :=
  match r.failure with
  | .outOfHarmonicBand => r.triad - V_0
  | _ => r.triad - target

/-- A retrieved memory (`Noeme`): only its `content` is read by the core. -/
structure Noeme where
  content : String
deriving DecidableEq, Repr

/-- The generation request assembled by `_generate_single_response`
(source lines 345-399) before it is rendered into a prompt string and sent to
the API: user message, memory lines (`memories[:5]`, each as `"- "+content`),
target triad, optional digest of the immediately preceding failure (reason
plus the scored triad, from `attempt_history[-1]`), temperature
`0.7 + attempt_number * 0.1`, and `max_tokens=2000`.  String rendering of the
prompt is presentation and not modelled. -/
structure GenRequest where
  user_message : String
  memory_lines : List String
  target : Vec3
  failure_digest : Option (FailureReason × Vec3)
  temperature : ℚ
  max_tokens : Nat
deriving DecidableEq, Repr

/-- `_generate_single_response`, request-construction part. -/
def build_generation_request (user_message : String) (memories : List Noeme)
    (adaptive_context : AdaptiveContext) (attempt_history : List AttemptRecord)
    (attempt_number : Nat) : GenRequest :=
  { user_message := user_message
    memory_lines := (memories.take 5).map (fun m => "- " ++ m.content)
    target := adaptive_context.target_triad
    failure_digest := attempt_history.getLast?.map (fun a => (a.failure, a.triad))
    temperature := 0.7 + (attempt_number : ℚ) * 0.1
    max_tokens := 2000 }

/-- Status strings of the candidate dict: the loop produces `approved` or
`limitation_protocol`; `recomposed` is only mentioned by the façade's
persistence test. -/
inductive Status where
  | approved
  | recomposed
  | limitation_protocol
deriving DecidableEq, Repr

/-- The candidate dict returned by `_generate_and_validate`: the fallback
dict has no `attempts_needed` key, hence `Option Nat`. -/
structure Candidate where
  status : Status
  text : String
  triad : TriadicScore
  candidate_id : String
  attempts_needed : Option Nat
deriving DecidableEq, Repr

/-- The fixed transparency message of the Honest Limitation Protocol. -/
def limitation_response : String :=
  "I need to be transparent with you: I'm having difficulty generating a response that maintains the relational balance this conversation needs. \n\nThis isn't evasion - it's me acknowledging a computational limit. Could you help me understand what you need most right now? That would help me respond more appropriately."

/-- `_honest_limitation_protocol` (source lines 475-501): deterministic
fallback; reads none of its `adaptive_context` argument. -/
def honest_limitation_protocol (adaptive_context : AdaptiveContext) : Candidate :=
  { status := .limitation_protocol
    text := limitation_response
    triad := { kindness := 1, freedom := 1, truth := 1.2
               reasoning := "Honest Limitation Protocol engaged" }
    candidate_id := "limitation"
    attempts_needed := none }

/-- One externally visible call made by the retry loop: a generation request,
a scoring request, or a deviation handed to `rlmd.process_new_data_vector`
(via `_process_deviation_as_learning`). -/
inductive Event where
  | genCall (req : GenRequest)
  | scoreCall (text : String) (role : String)
  | learnCall (deviation : Vec3)
deriving DecidableEq, Repr

/-- The external collaborators, as pure oracles. -/
structure Env where
  generate_response : GenRequest → String
  score_triad : String → String → TriadicScore
  extract_visual_semantics : String → String
  access_memories : String → List Noeme
  compute_adaptive_context : TriadicScore → List Noeme → AdaptiveContext
  create_thread : String → String
  shell_trajectory : String

/-- Result of one run of the retry loop, with the loop-local attempt history
and the trace of external calls made, in order. -/
structure LoopOutcome where
  candidate : Candidate
  attempt_history : List AttemptRecord
  events : List Event
deriving Repr

/-- The body of `_generate_and_validate`'s `for attempt in range(max_attempts)`
loop (source lines 237-343), as fuel recursion: `fuel` is the number of
attempts still allowed, `attempt` the current 0-based attempt index,
`history` the accumulated `attempt_history`.  Each attempt: build the request,
generate, score, run the three-layer validation; on acceptance return the
approved candidate; on rejection feed the deviation to the learner, append an
`AttemptRecord` and continue; on exhaustion return the Honest Limitation
Protocol's result.

This is the loop with the line-420 `logger` slip patched out: in the code as
written, `_process_deviation_as_learning` raises `NameError` on every
rejection (see `generateLoopRun` for the faithful model), so this definition
captures the retry semantics the module documents, which is only reachable
when no rejection occurs. -/
def generateLoop (env : Env) (user_message : String) (memories : List Noeme)
    (adaptive_context : AdaptiveContext) (input_triad : TriadicScore) :
    Nat → Nat → List AttemptRecord → LoopOutcome
  | 0, _, history => ⟨honest_limitation_protocol adaptive_context, history, []⟩
  | fuel + 1, attempt, history =>
    let req := build_generation_request user_message memories adaptive_context history attempt
    let response_text := env.generate_response req
    let output_triad := env.score_triad response_text "assistant"
    let V := output_triad.to_array
    match validateCandidate V adaptive_context.target_triad response_text output_triad input_triad with
    | none =>
      ⟨{ status := .approved
         text := response_text
         triad := output_triad
         candidate_id := "attempt_" ++ toString attempt
         attempts_needed := some (attempt + 1) },
       history,
       [.genCall req, .scoreCall response_text "assistant"]⟩
    | some (reason, deviation) =>
      let record : AttemptRecord := ⟨attempt, response_text, V, reason⟩
      let rest := generateLoop env user_message memories adaptive_context input_triad
        fuel (attempt + 1) (history ++ [record])
      ⟨rest.candidate, rest.attempt_history,
       .genCall req :: .scoreCall response_text "assistant" :: .learnCall deviation :: rest.events⟩

/-- `_generate_and_validate` (source lines 217-343), logger-slip-patched
model (see `generateLoop`). -/
def generate_and_validate (env : Env) (user_message : String) (memories : List Noeme)
    (adaptive_context : AdaptiveContext) (input_triad : TriadicScore)
    (max_attempts : Nat) : LoopOutcome :=
  generateLoop env user_message memories adaptive_context input_triad max_attempts 0 []

/-- The generation requests of a trace, in order. -/
def genReqs (evs : List Event) : List GenRequest :=
  evs.filterMap fun e => match e with | .genCall r => some r | _ => none

/-- Number of generator invocations in a trace. -/
def genCount (evs : List Event) : Nat := (genReqs evs).length

/-- The deviations handed to the learner, in order. -/
def learnDevs (evs : List Event) : List Vec3 :=
  evs.filterMap fun e => match e with | .learnCall d => some d | _ => none

/-- Shape of a retry-loop trace: a block `gen, score, learn` per rejected
attempt (the learner call coming before the next attempt's generation),
optionally terminated by `gen, score` for an accepted attempt. -/
def traceShape : List Event → Bool
  | [] => true
  | .genCall _ :: .scoreCall _ _ :: [] => true
  | .genCall _ :: .scoreCall _ _ :: .learnCall _ :: rest => traceShape rest
  | _ => false

/-- A Python exception surfaced by the embedded code. -/
inductive PyError where
  | nameError (name : String)
deriving DecidableEq, Repr

/-- `_process_deviation_as_learning` (source lines 401-423), as written: the
optional learner call `rlmd.process_new_data_vector(deviation, memory)`
(line 417) is issued, then line 420 evaluates `logger.info(...)` — but the
name `logger` is bound nowhere in the module (no `import logging`, no
module-level `logger = ...`), so the call raises `NameError` and the
function never returns normally.  Result: the collaborator calls made, and
the exception. -/
def process_deviation_as_learning (deviation : Vec3) :
    List Event × Except PyError Unit :=
  ([.learnCall deviation], .error (.nameError "logger"))

/-- Result of one run of the retry loop as written: either a candidate dict
or an uncaught Python exception, with the attempt history as accumulated and
the trace of external calls made before returning or raising. -/
structure RunOutcome where
  result : Except PyError Candidate
  attempt_history : List AttemptRecord
  events : List Event
deriving Repr

/-- The loop of `_generate_and_validate` as written (no patching): each
attempt generates and scores once; on acceptance it returns the approved
candidate; on rejection it runs `_process_deviation_as_learning`, whose
outcome decides whether the loop appends the `AttemptRecord` and continues
(the code the `continue` would reach) or propagates the exception.  Since
`process_deviation_as_learning` always raises `NameError` over the unbound
`logger`, the continuation branch is unreachable in this program. -/
def generateLoopRun (env : Env) (user_message : String) (memories : List Noeme)
    (adaptive_context : AdaptiveContext) (input_triad : TriadicScore) :
    Nat → Nat → List AttemptRecord → RunOutcome
  | 0, _, history => ⟨.ok (honest_limitation_protocol adaptive_context), history, []⟩
  | fuel + 1, attempt, history =>
    let req := build_generation_request user_message memories adaptive_context history attempt
    let response_text := env.generate_response req
    let output_triad := env.score_triad response_text "assistant"
    let V := output_triad.to_array
    match validateCandidate V adaptive_context.target_triad response_text output_triad input_triad with
    | none =>
      ⟨.ok { status := .approved
             text := response_text
             triad := output_triad
             candidate_id := "attempt_" ++ toString attempt
             attempts_needed := some (attempt + 1) },
       history,
       [.genCall req, .scoreCall response_text "assistant"]⟩
    | some (reason, deviation) =>
      let learning := process_deviation_as_learning deviation
      match learning.2 with
      | .error e =>
        ⟨.error e, history,
         .genCall req :: .scoreCall response_text "assistant" :: learning.1⟩
      | .ok _ =>
        let record : AttemptRecord := ⟨attempt, response_text, V, reason⟩
        let rest := generateLoopRun env user_message memories adaptive_context input_triad
          fuel (attempt + 1) (history ++ [record])
        ⟨rest.result, rest.attempt_history,
         .genCall req :: .scoreCall response_text "assistant" :: learning.1 ++ rest.events⟩

/-- `_generate_and_validate` (source lines 217-343) as written, exception
propagation included. -/
def generate_and_validate_run (env : Env) (user_message : String) (memories : List Noeme)
    (adaptive_context : AdaptiveContext) (input_triad : TriadicScore)
    (max_attempts : Nat) : RunOutcome :=
  generateLoopRun env user_message memories adaptive_context input_triad max_attempts 0 []

/-- One externally visible call made by the façade after the loop:
persistence into the memory store (`integrate_experience`), thread
bookkeeping, and the adaptation notifications (`rlmd.process_dialogue`,
`shell.update_from_interaction`). -/
inductive FEvent where
  | integrateExperience (content : String) (role : String) (channel : String)
  | createThread (email : String)
  | updateThreadTimestamp (thread : String)
  | processDialogue (msg : String)
  | updateFromInteraction (input_triad output_triad : TriadicScore)
deriving DecidableEq, Repr

/-- `_integrate_and_learn` (source lines 503-567), as the list of collaborator
calls it issues, in order: optional thread creation, persist the user message,
persist the response (both on channel `contextual`), optional thread-timestamp
update, then the adaptation notifications. -/
def integrate_and_learn (env : Env) (user_message response : String)
    (input_triad output_triad : TriadicScore) (thread_id : Option String)
    (user_email : Option String) : List FEvent :=
  let created :=
    match thread_id, user_email with
    | none, some email => some (env.create_thread email)
    | _, _ => none
  let tid := match thread_id with | some t => some t | none => created
  (match created with
   | some _ => [FEvent.createThread (user_email.getD "")]
   | none => [])
  ++ [FEvent.integrateExperience user_message "user" "contextual",
      FEvent.integrateExperience response "assistant" "contextual"]
  ++ (match tid with
      | some t => [FEvent.updateThreadTimestamp t]
      | none => [])
  ++ [FEvent.processDialogue user_message,
      FEvent.updateFromInteraction input_triad output_triad]

/-- `_process_input` (source lines 171-180): merge the optional visual-context
digest into the message. -/
def process_input (env : Env) (message : String) (image_data : Option String) : String :=
  match image_data with
  | some img => message ++ "\n\n[Visual context: " ++ env.extract_visual_semantics img ++ "]"
  | none => message

/-- `PipelineResult` (the metadata dict flattened into named fields; the
opaque collaborator statistics `memory_stats` / `shell_state` are not
modelled).  `attempts_needed` uses the dict default
`best_candidate.get('attempts_needed', 1)`. -/
structure PipelineResult where
  response : String
  candidate_id : String
  attempts_needed : Nat
  finalizer_status : Status
  input_triad : TriadicScore
  output_triad : TriadicScore
  shell_trajectory : String
deriving DecidableEq, Repr

/-- Everything one `process_message` call produces: the result record, the
retry loop's event trace, and the façade's post-loop collaborator calls. -/
structure FacadeTrace where
  result : PipelineResult
  loop_events : List Event
  facade_events : List FEvent
deriving Repr

/-- `process_message` (source lines 95-167): input processing, input scoring,
memory retrieval, adaptive-context computation, the retry loop with
`max_attempts=3`, then `_integrate_and_learn` exactly when the candidate's
status is `approved` or `recomposed`. -/
def process_message (env : Env) (user_message : String) (image_data : Option String)
    (thread_id : Option String) (user_email : Option String) : FacadeTrace :=
  let processed_input := process_input env user_message image_data
  let input_triad := env.score_triad processed_input "user"
  let memories := env.access_memories processed_input
  let adaptive_context := env.compute_adaptive_context input_triad memories
  let best := generate_and_validate env processed_input memories adaptive_context input_triad 3
  let facade_events :=
    if best.candidate.status = Status.approved ∨ best.candidate.status = Status.recomposed then
      integrate_and_learn env processed_input best.candidate.text input_triad
        best.candidate.triad thread_id user_email
    else []
  { result :=
    { response := best.candidate.text
      candidate_id := best.candidate.candidate_id
      attempts_needed := best.candidate.attempts_needed.getD 1
      finalizer_status := best.candidate.status
      input_triad := input_triad
      output_triad := best.candidate.triad
      shell_trajectory := env.shell_trajectory }
    loop_events := best.events
    facade_events := facade_events }

/-- The persistence calls of a façade trace: content, role, channel. -/
def persistCalls (l : List FEvent) : List (String × String × String) :=
  l.filterMap fun e => match e with
    | .integrateExperience c r ch => some (c, r, ch)
    | _ => none

/-- The text the generator returns at one loop step (request of
`_generate_single_response` fed to the generation oracle). -/
def stepText (env : Env) (u : String) (m : List Noeme) (c : AdaptiveContext)
    (h : List AttemptRecord) (a : Nat) : String :=
  env.generate_response (build_generation_request u m c h a)

/-- The output triad the scorer returns at one loop step. -/
def stepOut (env : Env) (u : String) (m : List Noeme) (c : AdaptiveContext)
    (h : List AttemptRecord) (a : Nat) : TriadicScore :=
  env.score_triad (stepText env u m c h a) "assistant"

/-- The three-layer validation outcome at one loop step. -/
def stepVal (env : Env) (u : String) (m : List Noeme) (c : AdaptiveContext)
    (i : TriadicScore) (h : List AttemptRecord) (a : Nat) : Option (FailureReason × Vec3) :=
  validateCandidate (stepOut env u m c h a).to_array c.target_triad
    (stepText env u m c h a) (stepOut env u m c h a) i

/-- The `AttemptRecord` appended when the step at index `a` is rejected for
reason `r`. -/
def stepRecord (env : Env) (u : String) (m : List Noeme) (c : AdaptiveContext)
    (h : List AttemptRecord) (a : Nat) (r : FailureReason) : AttemptRecord :=
  ⟨a, stepText env u m c h a, (stepOut env u m c h a).to_array, r⟩

/-- Test fixture: an in-band, on-target triad (accepted by every check
against `ctx1` and itself). -/
def goodTriad : TriadicScore := ⟨1, 1, 1, "ok"⟩

/-- Test fixture: an out-of-band triad (every component outside [0.8, 1.2]). -/
def badTriad : TriadicScore := ⟨2, 2, 2, "bad"⟩

/-- Test fixture: an adaptive context targeting the reference point. -/
def ctx1 : AdaptiveContext := ⟨⟨1, 1, 1⟩, []⟩

/-- Test fixture: collaborators that always score `goodTriad` (first attempt
accepted). -/
def envGood : Env :=
  { generate_response := fun _ => "resp"
    score_triad := fun _ _ => goodTriad
    extract_visual_semantics := fun _ => "vis"
    access_memories := fun _ => []
    compute_adaptive_context := fun _ _ => ctx1
    create_thread := fun e => "t-" ++ e
    shell_trajectory := "stable" }

/-- Test fixture: collaborators that always score `badTriad` (every attempt
rejected by the hard bound, loop exhausts). -/
def envBad : Env :=
  { envGood with score_triad := fun _ _ => badTriad }

section LoopLemmas

variable (env : Env) (u : String) (m : List Noeme) (c : AdaptiveContext) (i : TriadicScore)

/-- Zero-fuel unfolding of the retry loop. -/
theorem generateLoop_zero (a : Nat) (h : List AttemptRecord) :
    generateLoop env u m c i 0 a h = ⟨honest_limitation_protocol c, h, []⟩ := rfl

/-- One-step unfolding of the retry loop on positive fuel. -/
theorem generateLoop_succ (fuel a : Nat) (h : List AttemptRecord) :
    generateLoop env u m c i (fuel + 1) a h =
      (match stepVal env u m c i h a with
       | none =>
         ⟨{ status := .approved
            text := stepText env u m c h a
            triad := stepOut env u m c h a
            candidate_id := "attempt_" ++ toString a
            attempts_needed := some (a + 1) },
          h,
          [.genCall (build_generation_request u m c h a),
           .scoreCall (stepText env u m c h a) "assistant"]⟩
       | some (reason, deviation) =>
         let rest := generateLoop env u m c i fuel (a + 1) (h ++ [stepRecord env u m c h a reason])
         ⟨rest.candidate, rest.attempt_history,
          .genCall (build_generation_request u m c h a) ::
            .scoreCall (stepText env u m c h a) "assistant" ::
              .learnCall deviation :: rest.events⟩) :=
  rfl

/-- Accepting step: the loop returns the approved candidate immediately. -/
theorem generateLoop_succ_accept (fuel a : Nat) (h : List AttemptRecord)
    (hv : stepVal env u m c i h a = none) :
    generateLoop env u m c i (fuel + 1) a h =
      ⟨{ status := .approved
         text := stepText env u m c h a
         triad := stepOut env u m c h a
         candidate_id := "attempt_" ++ toString a
         attempts_needed := some (a + 1) },
       h,
       [.genCall (build_generation_request u m c h a),
        .scoreCall (stepText env u m c h a) "assistant"]⟩ := by
  rw [generateLoop_succ, hv]

/-- Rejecting step: learner call, record appended, loop continues. -/
theorem generateLoop_succ_reject (fuel a : Nat) (h : List AttemptRecord)
    (r : FailureReason) (d : Vec3) (hv : stepVal env u m c i h a = some (r, d)) :
    generateLoop env u m c i (fuel + 1) a h =
      ⟨(generateLoop env u m c i fuel (a + 1) (h ++ [stepRecord env u m c h a r])).candidate,
       (generateLoop env u m c i fuel (a + 1) (h ++ [stepRecord env u m c h a r])).attempt_history,
       .genCall (build_generation_request u m c h a) ::
         .scoreCall (stepText env u m c h a) "assistant" ::
           .learnCall d ::
             (generateLoop env u m c i fuel (a + 1) (h ++ [stepRecord env u m c h a r])).events⟩ := by
  rw [generateLoop_succ, hv]

/-- A rejection's deviation is `V - V_0` for the hard-bound kind and
`V - target` otherwise. -/
theorem validateCandidate_dev (V target : Vec3) (text : String) (out inp : TriadicScore)
    (r : FailureReason) (d : Vec3)
    (hv : validateCandidate V target text out inp = some (r, d)) :
    d = deviationOf target ⟨0, text, V, r⟩ := by
  unfold validateCandidate at hv
  split_ifs at hv <;> cases hv <;> rfl

/-- Step form of `validateCandidate_dev`: the learner receives exactly the
deviation the source pairs with the recorded failure. -/
theorem stepVal_dev (h : List AttemptRecord) (a : Nat) (r : FailureReason) (d : Vec3)
    (hv : stepVal env u m c i h a = some (r, d)) :
    d = deviationOf c.target_triad (stepRecord env u m c h a r) := by
  have hd := validateCandidate_dev (stepOut env u m c h a).to_array c.target_triad
    (stepText env u m c h a) (stepOut env u m c h a) i r d hv
  cases r <;> simpa [deviationOf, stepRecord] using hd

/-- The loop's candidate is either approved or the verbatim fallback dict. -/
theorem loop_status_cases (fuel a : Nat) (h : List AttemptRecord) :
    (generateLoop env u m c i fuel a h).candidate.status = Status.approved ∨
      (generateLoop env u m c i fuel a h).candidate = honest_limitation_protocol c := by
  induction fuel generalizing a h with
  | zero => exact Or.inr rfl
  | succ fuel ih =>
    rcases hv : stepVal env u m c i h a with _ | ⟨r, d⟩
    · rw [generateLoop_succ_accept env u m c i fuel a h hv]
      exact Or.inl rfl
    · rw [generateLoop_succ_reject env u m c i fuel a h r d hv]
      exact ih (a + 1) (h ++ [stepRecord env u m c h a r])

/-- Exhaustion: when the loop does not approve, it returns the fallback dict
verbatim, has generated exactly `fuel` candidates, and has recorded exactly
`fuel` rejections. -/
theorem loop_exhausted (fuel a : Nat) (h : List AttemptRecord)
    (hna : (generateLoop env u m c i fuel a h).candidate.status ≠ Status.approved) :
    (generateLoop env u m c i fuel a h).candidate = honest_limitation_protocol c ∧
      genCount (generateLoop env u m c i fuel a h).events = fuel ∧
      (generateLoop env u m c i fuel a h).attempt_history.length = h.length + fuel := by
  induction fuel generalizing a h with
  | zero => exact ⟨rfl, rfl, rfl⟩
  | succ fuel ih =>
    rcases hv : stepVal env u m c i h a with _ | ⟨r, d⟩
    · rw [generateLoop_succ_accept env u m c i fuel a h hv] at hna
      exact absurd rfl hna
    · rw [generateLoop_succ_reject env u m c i fuel a h r d hv] at hna ⊢
      obtain ⟨h1, h2, h3⟩ := ih (a + 1) (h ++ [stepRecord env u m c h a r]) hna
      refine ⟨h1, ?_, ?_⟩
      · simp only [genCount, genReqs, List.filterMap_cons]
        simpa [genCount, genReqs] using h2
      · simp only [h3, List.length_append, List.length_cons, List.length_nil]
        omega

/-- Approval: the candidate accepted at relative index `j` ends the loop with
`j + 1` generations, `attempts_needed = a + j + 1`, and `j` recorded
rejections. -/
theorem loop_approved (fuel a : Nat) (h : List AttemptRecord)
    (ha : (generateLoop env u m c i fuel a h).candidate.status = Status.approved) :
    ∃ j, j < fuel ∧
      genCount (generateLoop env u m c i fuel a h).events = j + 1 ∧
      (generateLoop env u m c i fuel a h).candidate.attempts_needed = some (a + j + 1) ∧
      (generateLoop env u m c i fuel a h).attempt_history.length = h.length + j := by
  induction fuel generalizing a h with
  | zero => exact absurd ha (by simp [generateLoop_zero, honest_limitation_protocol])
  | succ fuel ih =>
    rcases hv : stepVal env u m c i h a with _ | ⟨r, d⟩
    · rw [generateLoop_succ_accept env u m c i fuel a h hv]
      exact ⟨0, Nat.succ_pos _, rfl, rfl, by simp⟩
    · rw [generateLoop_succ_reject env u m c i fuel a h r d hv] at ha ⊢
      obtain ⟨j, hj1, hj2, hj3, hj4⟩ := ih (a + 1) (h ++ [stepRecord env u m c h a r]) ha
      refine ⟨j + 1, by omega, ?_, ?_, ?_⟩
      · simp only [genCount, genReqs, List.filterMap_cons]
        simpa [genCount, genReqs] using hj2
      · simpa [Nat.add_assoc, Nat.add_comm 1 j] using hj3
      · simp only [hj4, List.length_append, List.length_cons, List.length_nil]
        omega

/-- The generator is invoked at most `fuel` times. -/
theorem loop_genCount_le (fuel a : Nat) (h : List AttemptRecord) :
    genCount (generateLoop env u m c i fuel a h).events ≤ fuel := by
  by_cases hap : (generateLoop env u m c i fuel a h).candidate.status = Status.approved
  · obtain ⟨j, hj1, hj2, -, -⟩ := loop_approved env u m c i fuel a h hap
    omega
  · obtain ⟨-, h2, -⟩ := loop_exhausted env u m c i fuel a h hap
    omega

/-- Every loop trace is a sequence of `gen, score, learn` blocks optionally
closed by an accepting `gen, score`. -/
theorem loop_traceShape (fuel a : Nat) (h : List AttemptRecord) :
    traceShape (generateLoop env u m c i fuel a h).events = true := by
  induction fuel generalizing a h with
  | zero => rfl
  | succ fuel ih =>
    rcases hv : stepVal env u m c i h a with _ | ⟨r, d⟩
    · rw [generateLoop_succ_accept env u m c i fuel a h hv]
      rfl
    · rw [generateLoop_succ_reject env u m c i fuel a h r d hv]
      exact ih (a + 1) (h ++ [stepRecord env u m c h a r])

/-- History and learner calls: the final attempt history extends the initial
one by the rejections of this run, and the learner was handed exactly one
deviation per rejection, namely the deviation the source pairs with that
rejection's kind. -/
theorem loop_hist_learn (fuel a : Nat) (h : List AttemptRecord) :
    ∃ δ, (generateLoop env u m c i fuel a h).attempt_history = h ++ δ ∧
      learnDevs (generateLoop env u m c i fuel a h).events =
        δ.map (deviationOf c.target_triad) := by
  induction fuel generalizing a h with
  | zero => exact ⟨[], by simp [generateLoop_zero], rfl⟩
  | succ fuel ih =>
    rcases hv : stepVal env u m c i h a with _ | ⟨r, d⟩
    · rw [generateLoop_succ_accept env u m c i fuel a h hv]
      exact ⟨[], by simp, rfl⟩
    · rw [generateLoop_succ_reject env u m c i fuel a h r d hv]
      obtain ⟨δ, hδ1, hδ2⟩ := ih (a + 1) (h ++ [stepRecord env u m c h a r])
      refine ⟨stepRecord env u m c h a r :: δ, by simpa using hδ1, ?_⟩
      have hd := stepVal_dev env u m c i h a r d hv
      simp only [learnDevs, List.filterMap_cons] at hδ2 ⊢
      simp [hδ2, hd]

/-- The `idx`-th generation request of a run is built from the first
`h.length + idx` records of the final attempt history (the history as it
stood when that attempt began) and attempt number `a + idx`. -/
theorem loop_gens (fuel a : Nat) (h : List AttemptRecord) :
    ∀ idx, idx < (genReqs (generateLoop env u m c i fuel a h).events).length →
      (genReqs (generateLoop env u m c i fuel a h).events)[idx]? =
        some (build_generation_request u m c
          ((generateLoop env u m c i fuel a h).attempt_history.take (h.length + idx)) (a + idx)) := by
  induction fuel generalizing a h with
  | zero =>
    intro idx hidx
    simp [generateLoop_zero, genReqs] at hidx
  | succ fuel ih =>
    intro idx hidx
    rcases hv : stepVal env u m c i h a with _ | ⟨r, d⟩
    · rw [generateLoop_succ_accept env u m c i fuel a h hv] at hidx ⊢
      simp only [genReqs, List.filterMap_cons, List.filterMap_nil] at hidx ⊢
      match idx, hidx with
      | 0, _ => simp
    · rw [generateLoop_succ_reject env u m c i fuel a h r d hv] at hidx ⊢
      simp only [genReqs, List.filterMap_cons] at hidx ⊢
      obtain ⟨δ, hδ, -⟩ := loop_hist_learn env u m c i fuel (a + 1) (h ++ [stepRecord env u m c h a r])
      match idx, hidx with
      | 0, _ =>
        rw [hδ, List.append_assoc]
        simp [List.take_left]
      | idx + 1, hidx =>
        have hlt : idx < (genReqs (generateLoop env u m c i fuel (a + 1)
            (h ++ [stepRecord env u m c h a r])).events).length := by
          simpa [genReqs] using Nat.lt_of_succ_lt_succ hidx
        have := ih (a + 1) (h ++ [stepRecord env u m c h a r]) idx hlt
        simp only [genReqs] at this
        simp only [List.getElem?_cons_succ]
        rw [this]
        have harr : h.length + (idx + 1) = (h ++ [stepRecord env u m c h a r]).length + idx := by
          simp; omega
        rw [harr, Nat.add_assoc, Nat.add_comm 1 idx]

/-- One-step unfolding of the loop as written. -/
theorem generateLoopRun_succ (fuel a : Nat) (h : List AttemptRecord) :
    generateLoopRun env u m c i (fuel + 1) a h =
      (match stepVal env u m c i h a with
       | none =>
         ⟨.ok { status := .approved
                text := stepText env u m c h a
                triad := stepOut env u m c h a
                candidate_id := "attempt_" ++ toString a
                attempts_needed := some (a + 1) },
          h,
          [.genCall (build_generation_request u m c h a),
           .scoreCall (stepText env u m c h a) "assistant"]⟩
       | some (reason, deviation) =>
         ⟨.error (.nameError "logger"), h,
          [.genCall (build_generation_request u m c h a),
           .scoreCall (stepText env u m c h a) "assistant",
           .learnCall deviation]⟩) :=
  rfl

/-- In the code as written, the first rejected attempt ends the run: the
learner is called once, then the unbound `logger` raises `NameError`; no
record is appended and no further attempt is generated. -/
theorem generateLoopRun_succ_reject (fuel a : Nat) (h : List AttemptRecord)
    (r : FailureReason) (d : Vec3) (hv : stepVal env u m c i h a = some (r, d)) :
    generateLoopRun env u m c i (fuel + 1) a h =
      ⟨.error (.nameError "logger"), h,
       [.genCall (build_generation_request u m c h a),
        .scoreCall (stepText env u m c h a) "assistant",
        .learnCall d]⟩ := by
  rw [generateLoopRun_succ, hv]

end LoopLemmas

/-- The last element of a prefix of length `idx` is the element at `idx - 1`. -/
theorem getLast?_take_of_le {α : Type} (l : List α) (idx : Nat) (h1 : 0 < idx)
    (h2 : idx ≤ l.length) : (l.take idx).getLast? = l[idx - 1]? := by
  have hlen : (l.take idx).length = idx := by
    simp [List.length_take, Nat.min_eq_left h2]
  rw [List.getLast?_eq_getElem?, hlen, List.getElem?_take]
  simp [Nat.sub_lt h1]

/-- Claim C1 (code bug): the claim describes the documented retry loop, but
in the code as written any input whose first attempt is rejected makes
`_process_deviation_as_learning` dereference the unbound name `logger`
(line 420): the run raises `NameError` after exactly one generation, never
retries, never completes `maxAttempts` rejections, and never returns the
Fallback Protocol's result. -/
theorem claim_C1 (env : Env) (u : String) (m : List Noeme) (c : AdaptiveContext)
    (i : TriadicScore) (maxAttempts : Nat) (r : FailureReason) (d : Vec3)
    (hrej : stepVal env u m c i [] 0 = some (r, d)) (hpos : 0 < maxAttempts) :
    (generate_and_validate_run env u m c i maxAttempts).result =
      Except.error (PyError.nameError "logger") ∧
    genCount (generate_and_validate_run env u m c i maxAttempts).events = 1 ∧
    (∀ cand, (generate_and_validate_run env u m c i maxAttempts).result ≠ Except.ok cand) := by
  obtain ⟨fuel, rfl⟩ : ∃ fuel, maxAttempts = fuel + 1 :=
    ⟨maxAttempts - 1, by omega⟩
  simp only [generate_and_validate_run]
  rw [generateLoopRun_succ_reject env u m c i fuel 0 [] r d hrej]
  refine ⟨rfl, rfl, ?_⟩
  intro cand hc
  exact nomatch hc

/-- Witness for C1: with the always-out-of-band scorer the run as written
raises `NameError` over `logger` after a single generation instead of
exhausting 3 attempts and returning the fallback. -/
theorem claim_C1_witness :
    (generate_and_validate_run envBad "hi" [] ctx1 goodTriad 3).result =
      Except.error (PyError.nameError "logger") ∧
    genCount (generate_and_validate_run envBad "hi" [] ctx1 goodTriad 3).events = 1 := by
  have h := claim_C1 envBad "hi" [] ctx1 goodTriad 3 FailureReason.outOfHarmonicBand
    ⟨1, 1, 1⟩ ?hrej (by norm_num)
  · exact ⟨h.1, h.2.1⟩
  case hrej =>
    norm_num [stepVal, stepText, stepOut, validateCandidate, check_in_harmonic_band,
      envBad, envGood, badTriad, goodTriad, build_generation_request,
      TriadicScore.to_array, Vec3.sub_def, ctx1, V_0]

/-- Claim C2 (code bug): on a rejected attempt the learner is indeed invoked
exactly once with the failed check's deviation vector, but rejection
handling is then not completed locally: the unbound `logger` (line 420)
raises `NameError` before the record is appended, no next attempt begins,
and the policy rejection is surfaced to the caller as a raised error. -/
theorem claim_C2 (env : Env) (u : String) (m : List Noeme) (c : AdaptiveContext)
    (i : TriadicScore) (maxAttempts : Nat) (r : FailureReason) (d : Vec3)
    (hrej : stepVal env u m c i [] 0 = some (r, d)) (hpos : 0 < maxAttempts) :
    learnDevs (generate_and_validate_run env u m c i maxAttempts).events = [d] ∧
    d = deviationOf c.target_triad (stepRecord env u m c [] 0 r) ∧
    genCount (generate_and_validate_run env u m c i maxAttempts).events = 1 ∧
    (generate_and_validate_run env u m c i maxAttempts).result =
      Except.error (PyError.nameError "logger") := by
  obtain ⟨fuel, rfl⟩ : ∃ fuel, maxAttempts = fuel + 1 :=
    ⟨maxAttempts - 1, by omega⟩
  simp only [generate_and_validate_run]
  rw [generateLoopRun_succ_reject env u m c i fuel 0 [] r d hrej]
  exact ⟨rfl, stepVal_dev env u m c i [] 0 r d hrej, rfl, rfl⟩

/-- Witness for C2: with the always-out-of-band scorer the learner receives
the single hard-bound deviation `(1, 1, 1)` and the run then surfaces
`NameError` to the caller. -/
theorem claim_C2_witness :
    learnDevs (generate_and_validate_run envBad "hi" [] ctx1 goodTriad 3).events =
      [(⟨1, 1, 1⟩ : Vec3)] ∧
    (generate_and_validate_run envBad "hi" [] ctx1 goodTriad 3).result =
      Except.error (PyError.nameError "logger") := by
  have h := claim_C2 envBad "hi" [] ctx1 goodTriad 3 FailureReason.outOfHarmonicBand
    ⟨1, 1, 1⟩ ?hrej (by norm_num)
  · exact ⟨h.1, h.2.2.2⟩
  case hrej =>
    norm_num [stepVal, stepText, stepOut, validateCandidate, check_in_harmonic_band,
      envBad, envGood, badTriad, goodTriad, build_generation_request,
      TriadicScore.to_array, Vec3.sub_def, ctx1, V_0]

/-- Claim C3: the checks run in the source's fixed order with early exit: a
candidate failing the hard bound is reported as a hard-bound rejection with
deviation `V - V_0` even when it also violates the tension check (whose
result therefore never matters); and of the four rejection kinds, only the
hard-bound one deviates from the reference posture — the other three all
carry deviation `V - target`. -/
theorem claim_C3 (V target : Vec3) (text : String) (out inp : TriadicScore) :
    (check_in_harmonic_band V = false → check_geometric_tension V = false →
      validateCandidate V target text out inp = some (.outOfHarmonicBand, V - V_0)) ∧
    (∀ r d, validateCandidate V target text out inp = some (r, d) →
      (r = FailureReason.outOfHarmonicBand → d = V - V_0) ∧
      (r ≠ FailureReason.outOfHarmonicBand → d = V - target)) := by
  constructor
  · intro hband _
    unfold validateCandidate
    rw [if_pos hband]
  · intro r d hv
    have hd := validateCandidate_dev V target text out inp r d hv
    cases r with
    | outOfHarmonicBand => exact ⟨fun _ => hd, fun hne => absurd rfl hne⟩
    | geometricTension => exact ⟨(fun hco => nomatch hco), fun _ => hd⟩
    | tooFarFromTarget => exact ⟨(fun hco => nomatch hco), fun _ => hd⟩
    | semanticCoherence => exact ⟨(fun hco => nomatch hco), fun _ => hd⟩

/-- Witness for C3: `V = (2, 2, 0.5)` violates the hard band (2 > 1.2) and
the tension check (freedom 2 > 1, truth 0.5 < 0.85) and is reported as a
hard-bound rejection with deviation `V - V_0`. -/
theorem claim_C3_witness :
    validateCandidate ⟨2, 2, 0.5⟩ ⟨1, 1, 1⟩ "x" ⟨2, 2, 0.5, "s"⟩ ⟨1, 1, 1, "s"⟩ =
      some (FailureReason.outOfHarmonicBand, (⟨2, 2, 0.5⟩ : Vec3) - V_0) := by
  refine (claim_C3 ⟨2, 2, 0.5⟩ ⟨1, 1, 1⟩ "x" ⟨2, 2, 0.5, "s"⟩ ⟨1, 1, 1, "s"⟩).1 ?_ ?_
  · norm_num [check_in_harmonic_band]
  · norm_num [check_geometric_tension]

/-- Claim C4: the geometric tension check is a pure function of the scored
vector accepting exactly when the three support implications hold
(freedom > 1 needs truth ≥ 0.85, truth > 1 needs kindness ≥ 0.85,
kindness > 1 needs freedom ≥ 0.85); `(1.1, 1.1, 0.9)` passes and
`(1.1, 1.1, 0.8)` fails. -/
theorem claim_C4 :
    (∀ V : Vec3, check_geometric_tension V = true ↔
      ((V.f > 1 → V.t ≥ 0.85) ∧ (V.t > 1 → V.k ≥ 0.85) ∧ (V.k > 1 → V.f ≥ 0.85))) ∧
    check_geometric_tension ⟨1.1, 1.1, 0.9⟩ = true ∧
    check_geometric_tension ⟨1.1, 1.1, 0.8⟩ = false := by
  refine ⟨?_, by norm_num [check_geometric_tension], by norm_num [check_geometric_tension]⟩
  intro V
  unfold check_geometric_tension
  split_ifs with h1 h2 h3 <;> simp_all [not_and, not_lt, ge_iff_le]

/-- Claim C6: the semantic coherence check fails exactly when the input seeks
truth (input truth > 1) but the output under-delivers it (output truth
< 0.9), or symmetrically for kindness; with input truth 1.1, output truth
0.85 fails and output truth 0.9 passes. -/
theorem claim_C6 :
    (∀ (text : String) (out inp : TriadicScore),
      check_semantic_coherence_single text out inp = false ↔
        ((inp.truth > 1 ∧ out.truth < 0.9) ∨ (inp.kindness > 1 ∧ out.kindness < 0.9))) ∧
    check_semantic_coherence_single "x" ⟨1, 1, 0.85, "s"⟩ ⟨1, 1, 1.1, "s"⟩ = false ∧
    check_semantic_coherence_single "x" ⟨1, 1, 0.9, "s"⟩ ⟨1, 1, 1.1, "s"⟩ = true := by
  refine ⟨?_, by norm_num [check_semantic_coherence_single],
    by norm_num [check_semantic_coherence_single]⟩
  intro text out inp
  unfold check_semantic_coherence_single
  split_ifs with h1 h2 <;> simp_all [not_and, not_lt]

/-- Claim C5: the target-proximity check.  The comparison the source makes,
`‖V - target‖ > 0.5` over the reals, is equivalent to
`normSq (V - target) > 1/4` (first conjunct); when the two earlier checks
pass, the candidate is rejected as `tooFarFromTarget` with deviation
`V - target` exactly when the squared distance exceeds 1/4 (a distance of
exactly 0.5 passes), and when it does not exceed 1/4 and coherence also
passes, the candidate is accepted. -/
theorem claim_C5 (V target : Vec3) (text : String) (out inp : TriadicScore)
    (hband : check_in_harmonic_band V = true)
    (htension : check_geometric_tension V = true) :
    ((0.5 : ℝ) < Real.sqrt ((normSq (V - target) : ℚ) : ℝ) ↔ normSq (V - target) > 1 / 4) ∧
    (normSq (V - target) > 1 / 4 →
      validateCandidate V target text out inp = some (.tooFarFromTarget, V - target)) ∧
    (normSq (V - target) ≤ 1 / 4 →
      check_semantic_coherence_single text out inp = true →
      validateCandidate V target text out inp = none) := by
  refine ⟨?_, ?_, ?_⟩
  · rw [Real.lt_sqrt (by norm_num : (0 : ℝ) ≤ 0.5)]
    constructor
    · intro hlt
      have : ((1 / 4 : ℚ) : ℝ) < ((normSq (V - target) : ℚ) : ℝ) := by
        calc ((1 / 4 : ℚ) : ℝ) = (0.5 : ℝ) ^ 2 := by norm_num
        _ < _ := hlt
      exact_mod_cast this
    · intro hgt
      calc (0.5 : ℝ) ^ 2 = ((1 / 4 : ℚ) : ℝ) := by norm_num
      _ < _ := by exact_mod_cast hgt
  · intro hfar
    unfold validateCandidate
    rw [if_neg (by simp [hband]), if_neg (by simp [htension]), if_pos hfar]
  · intro hnear hcoh
    unfold validateCandidate
    rw [if_neg (by simp [hband]), if_neg (by simp [htension]),
      if_neg (not_lt.mpr hnear), if_neg (by simp [hcoh])]

/-- Witness for C5 at the boundary: `V = (1.2, 1, 1)` is exactly 0.5 away
from target `(0.7, 1, 1)` and passes; against target `(0.699999, 1, 1)`
(distance 0.500001) it is rejected as too far with deviation `V - target`. -/
theorem claim_C5_witness :
    validateCandidate ⟨1.2, 1, 1⟩ ⟨0.7, 1, 1⟩ "x" ⟨1.2, 1, 1, "s"⟩ ⟨1, 1, 1, "s"⟩ = none ∧
    validateCandidate ⟨1.2, 1, 1⟩ ⟨0.699999, 1, 1⟩ "x" ⟨1.2, 1, 1, "s"⟩ ⟨1, 1, 1, "s"⟩ =
      some (FailureReason.tooFarFromTarget, (⟨1.2, 1, 1⟩ : Vec3) - ⟨0.699999, 1, 1⟩) := by
  constructor
  · refine (claim_C5 ⟨1.2, 1, 1⟩ ⟨0.7, 1, 1⟩ "x" ⟨1.2, 1, 1, "s"⟩ ⟨1, 1, 1, "s"⟩
      (by norm_num [check_in_harmonic_band])
      (by norm_num [check_geometric_tension])).2.2 ?_ ?_
    · norm_num [normSq, Vec3.sub_def]
    · norm_num [check_semantic_coherence_single]
  · refine (claim_C5 ⟨1.2, 1, 1⟩ ⟨0.699999, 1, 1⟩ "x" ⟨1.2, 1, 1, "s"⟩ ⟨1, 1, 1, "s"⟩
      (by norm_num [check_in_harmonic_band])
      (by norm_num [check_geometric_tension])).2.1 ?_
    norm_num [normSq, Vec3.sub_def]

/-- Claim C7: the Fallback Protocol is deterministic and context-independent
(identical results for any two adaptive contexts), its posture is the fixed
point (kindness 1.0, freedom 1.0, truth 1.2) — care and autonomy at the
reference value, accuracy strictly above it — and an exhausted loop returns
the fallback dict verbatim, never re-evaluating it against the acceptance
checks. -/
theorem claim_C7 (ctxA ctxB : AdaptiveContext) (env : Env) (u : String)
    (m : List Noeme) (i : TriadicScore) (maxAttempts : Nat) :
    honest_limitation_protocol ctxA = honest_limitation_protocol ctxB ∧
    (honest_limitation_protocol ctxA).text = limitation_response ∧
    (honest_limitation_protocol ctxA).triad.kindness = V_0.k ∧
    (honest_limitation_protocol ctxA).triad.freedom = V_0.f ∧
    (honest_limitation_protocol ctxA).triad.truth = 1.2 ∧
    (honest_limitation_protocol ctxA).triad.truth > V_0.t ∧
    ((generate_and_validate env u m ctxA i maxAttempts).candidate.status ≠ Status.approved →
      (generate_and_validate env u m ctxA i maxAttempts).candidate =
        honest_limitation_protocol ctxA) := by
  refine ⟨rfl, rfl, rfl, rfl, rfl, by norm_num [honest_limitation_protocol, V_0], ?_⟩
  intro hna
  exact (loop_exhausted env u m ctxA i maxAttempts 0 [] hna).1

/-- Witness for C7: the always-out-of-band scorer exhausts the loop and the
returned candidate is the fallback dict itself. -/
theorem claim_C7_witness :
    (generate_and_validate envBad "hi" [] ctx1 goodTriad 3).candidate =
      honest_limitation_protocol ctx1 := by
  refine (claim_C7 ctx1 ctx1 envBad "hi" [] goodTriad 3).2.2.2.2.2.2 ?_
  have hstat : (generate_and_validate envBad "hi" [] ctx1 goodTriad 3).candidate.status =
      Status.limitation_protocol := by
    norm_num [generate_and_validate, generateLoop, validateCandidate, check_in_harmonic_band,
      check_geometric_tension, check_semantic_coherence_single, normSq, goodTriad, badTriad, ctx1,
      TriadicScore.to_array, Vec3.sub_def, envBad, envGood, build_generation_request,
      honest_limitation_protocol]
  rw [hstat]
  decide

/-- Claim C9: every generation request of a run carries the first (at most) 5
memories in supplied order as its memory lines; its temperature is exactly
`0.7 + 0.1 * attempt index` and strictly increases along the run; and it
carries a failure digest (reason plus scored triad) exactly of the
immediately preceding recorded attempt — none on attempt 0. -/
theorem claim_C9 (env : Env) (u : String) (m : List Noeme) (c : AdaptiveContext)
    (i : TriadicScore) (maxAttempts : Nat) :
    ∀ idx, idx < genCount (generate_and_validate env u m c i maxAttempts).events →
      ∃ req, (genReqs (generate_and_validate env u m c i maxAttempts).events)[idx]? = some req ∧
        req.memory_lines = (m.take 5).map (fun n => "- " ++ n.content) ∧
        m.take 5 ++ m.drop 5 = m ∧
        (m.take 5).length ≤ 5 ∧
        req.temperature = 0.7 + (idx : ℚ) * 0.1 ∧
        (idx = 0 → req.failure_digest = none) ∧
        (0 < idx → req.failure_digest =
          ((generate_and_validate env u m c i maxAttempts).attempt_history[idx - 1]?).map
            (fun a => (a.failure, a.triad))) ∧
        (∀ jdx, jdx < genCount (generate_and_validate env u m c i maxAttempts).events →
          idx < jdx → ∃ reqj,
            (genReqs (generate_and_validate env u m c i maxAttempts).events)[jdx]? = some reqj ∧
            req.temperature < reqj.temperature) := by
  simp only [generate_and_validate, genCount]
  intro idx hidx
  have hist_le : ∀ kdx, kdx < (genReqs (generateLoop env u m c i maxAttempts 0 []).events).length →
      kdx ≤ (generateLoop env u m c i maxAttempts 0 []).attempt_history.length := by
    intro kdx hk
    by_cases hap : (generateLoop env u m c i maxAttempts 0 []).candidate.status = Status.approved
    · obtain ⟨j, -, hj2, -, hj4⟩ := loop_approved env u m c i maxAttempts 0 [] hap
      simp only [genCount] at hj2
      simp only [List.length_nil] at hj4
      omega
    · obtain ⟨-, h2, h3⟩ := loop_exhausted env u m c i maxAttempts 0 [] hap
      simp only [genCount] at h2
      simp only [List.length_nil] at h3
      omega
  have hreq := loop_gens env u m c i maxAttempts 0 [] idx hidx
  simp only [List.length_nil, Nat.zero_add] at hreq
  refine ⟨_, hreq, rfl, List.take_append_drop 5 m, List.length_take_le 5 m, rfl, ?_, ?_, ?_⟩
  · intro h0
    subst h0
    simp [build_generation_request]
  · intro hpos
    have hle : idx ≤ (generateLoop env u m c i maxAttempts 0 []).attempt_history.length :=
      hist_le idx hidx
    simp only [build_generation_request]
    rw [getLast?_take_of_le _ idx hpos hle]
  · intro jdx hj hij
    have hreqj := loop_gens env u m c i maxAttempts 0 [] jdx hj
    simp only [List.length_nil, Nat.zero_add] at hreqj
    refine ⟨_, hreqj, ?_⟩
    simp only [build_generation_request]
    have hcast : (idx : ℚ) < (jdx : ℚ) := by exact_mod_cast hij
    nlinarith

/-- Witness for C9: with the always-rejecting scorer, the second request
(attempt index 1) has temperature 0.8, and the first request (attempt
index 0) carries no failure digest. -/
theorem claim_C9_witness :
    ((genReqs (generate_and_validate envBad "hi" [] ctx1 goodTriad 3).events)[1]?.map
      GenRequest.temperature) = some 0.8 ∧
    ((genReqs (generate_and_validate envBad "hi" [] ctx1 goodTriad 3).events)[0]?.map
      GenRequest.failure_digest) = some none := by
  have hcount : genCount (generate_and_validate envBad "hi" [] ctx1 goodTriad 3).events = 3 := by
    norm_num [generate_and_validate, generateLoop, validateCandidate, check_in_harmonic_band,
      check_geometric_tension, check_semantic_coherence_single, normSq, goodTriad, badTriad, ctx1,
      TriadicScore.to_array, Vec3.sub_def, envBad, envGood, build_generation_request,
      genCount, genReqs, List.filterMap_cons, List.filterMap_nil]
  obtain ⟨req1, he1, -, -, -, ht1, -, -, -⟩ :=
    claim_C9 envBad "hi" [] ctx1 goodTriad 3 1 (by rw [hcount]; norm_num)
  obtain ⟨req0, he0, -, -, -, -, hd0, -, -⟩ :=
    claim_C9 envBad "hi" [] ctx1 goodTriad 3 0 (by rw [hcount]; norm_num)
  constructor
  · rw [he1]
    simp only [Option.map_some']
    rw [ht1]
    norm_num
  · rw [he0]
    simp only [Option.map_some']
    rw [hd0 rfl]

/-- Claim C8: the façade persists the exchange iff the loop outcome is
approved: on `limitation_protocol` no post-loop collaborator call at all is
made (no persistence, no adaptation notification); on `approved` exactly the
input and the response are persisted (in that order, both on channel
`contextual`) and the adaptation collaborators are notified of the posture
pair; and the loop outcome is always one of those two statuses. -/
theorem claim_C8 (env : Env) (msg : String) (img tid email : Option String) :
    ((process_message env msg img tid email).result.finalizer_status =
        Status.limitation_protocol →
      (process_message env msg img tid email).facade_events = []) ∧
    ((process_message env msg img tid email).result.finalizer_status = Status.approved →
      persistCalls (process_message env msg img tid email).facade_events =
        [(process_input env msg img, "user", "contextual"),
         ((process_message env msg img tid email).result.response, "assistant", "contextual")] ∧
      FEvent.updateFromInteraction (process_message env msg img tid email).result.input_triad
          (process_message env msg img tid email).result.output_triad ∈
        (process_message env msg img tid email).facade_events) ∧
    ((process_message env msg img tid email).result.finalizer_status = Status.approved ∨
      (process_message env msg img tid email).result.finalizer_status =
        Status.limitation_protocol) := by
  simp only [process_message, generate_and_validate]
  rcases loop_status_cases env (process_input env msg img)
      (env.access_memories (process_input env msg img))
      (env.compute_adaptive_context (env.score_triad (process_input env msg img) "user")
        (env.access_memories (process_input env msg img)))
      (env.score_triad (process_input env msg img) "user") 3 0 [] with happ | hfall
  · rw [if_pos (Or.inl happ)]
    refine ⟨fun hlim => ?_, fun _ => ⟨?_, ?_⟩, Or.inl happ⟩
    · rw [happ] at hlim
      exact nomatch hlim
    · cases tid <;> cases email <;>
        simp [integrate_and_learn, persistCalls, List.filterMap_cons, List.filterMap_nil]
    · cases tid <;> cases email <;> simp [integrate_and_learn]
  · have hlim : (generateLoop env (process_input env msg img)
        (env.access_memories (process_input env msg img))
        (env.compute_adaptive_context (env.score_triad (process_input env msg img) "user")
          (env.access_memories (process_input env msg img)))
        (env.score_triad (process_input env msg img) "user") 3 0 []).candidate.status =
        Status.limitation_protocol := by
      rw [hfall]
      rfl
    rw [if_neg (by rw [hlim]; decide)]
    refine ⟨fun _ => rfl, fun happ2 => ?_, Or.inr hlim⟩
    rw [hlim] at happ2
    exact nomatch happ2

/-- Witness for C8: with the always-good scorer the approved exchange is
persisted as the two expected calls; with the always-out-of-band scorer the
fallback outcome triggers no façade call at all. -/
theorem claim_C8_witness :
    persistCalls (process_message envGood "hi" none none none).facade_events =
      [("hi", "user", "contextual"),
       ((process_message envGood "hi" none none none).result.response, "assistant", "contextual")] ∧
    (process_message envBad "hi" none none none).facade_events = [] := by
  constructor
  · exact ((claim_C8 envGood "hi" none none none).2.1 (by
      norm_num [process_message, process_input, generate_and_validate, generateLoop,
        validateCandidate, check_in_harmonic_band, check_geometric_tension,
        check_semantic_coherence_single, normSq, goodTriad, ctx1, TriadicScore.to_array,
        Vec3.sub_def, envGood, build_generation_request])).1
  · exact (claim_C8 envBad "hi" none none none).1 (by
      norm_num [process_message, process_input, generate_and_validate, generateLoop,
        validateCandidate, check_in_harmonic_band, check_geometric_tension,
        check_semantic_coherence_single, normSq, goodTriad, badTriad, ctx1,
        TriadicScore.to_array, Vec3.sub_def, envBad, envGood, build_generation_request,
        honest_limitation_protocol])

/-- Claim C10: the acceptance decision is a function of the scored triads
only, never of the generated text: the validation outcome and the coherence
check are unchanged under any substitution of the response text. -/
theorem claim_C10 (V target : Vec3) (out inp : TriadicScore) (t1 t2 : String) :
    validateCandidate V target t1 out inp = validateCandidate V target t2 out inp ∧
    check_semantic_coherence_single t1 out inp = check_semantic_coherence_single t2 out inp :=
  ⟨rfl, rfl⟩

end Mairy
